import Mathlib

/-!
Verification of the household-income ETL script (scripts/income.py).

The script is embedded shallowly: Python integers become `Int`, the float
`round(count / total, 3)` is modelled exactly over `ℚ` with round-half-to-even
at three decimals, fallible operations return `Except TransformError`, and the
stable `sorted` builtin is modelled by `List.insertionSort` (a stable sort,
hence extensionally equal to any stable sort for a total preorder).
-/

/-- Income group order for sorting, exactly as declared in the source
`IncomeGroup` Literal (note that the source lists "75000 to 99999" before
"50000 to 74999"). -/
def incomeGroupOrder : List String :=
  ["<10000",
   "10000 to 14999",
   "15000 to 24999",
   "25000 to 34999",
   "35000 to 49999",
   "75000 to 99999",
   "50000 to 74999",
   "100000 to 149999",
   "150000 to 199999",
   "200000+"]

/-- Modelled from the spec: the ten brackets in low-to-high income order, as
the spec describes the canonical order ("<10000 first, 200000+ last",
brackets ascending). Used only to compare with the order the code declares. -/
def lowToHighGroups : List String :=
  ["<10000",
   "10000 to 14999",
   "15000 to 24999",
   "25000 to 34999",
   "35000 to 49999",
   "50000 to 74999",
   "75000 to 99999",
   "100000 to 149999",
   "150000 to 199999",
   "200000+"]

/-- Census API response after initial parsing (class CensusResponse). -/
structure CensusResponse where
  header : List String
  data : List (List String)
deriving DecidableEq, Repr

/-- A value of the INCOME_MAPPING dict: either a plain string (the "total"
pass-through) or a group dict with an optional "sum_vars" list. -/
inductive MappingVal where
  | str (s : String)
  | grp (group : String) (sum_vars : Option (List String))
deriving DecidableEq, Repr

/-- INCOME_MAPPING from the source, in dict insertion order. -/
def INCOME_MAPPING : List (String × MappingVal) :=
  [("B19001_001E", .str "total"),
   ("B19001_002E", .grp "<10000" none),
   ("B19001_003E", .grp "10000 to 14999" none),
   ("B19001_004E,B19001_005E",
     .grp "15000 to 24999" (some ["B19001_004E", "B19001_005E"])),
   ("B19001_006E,B19001_007E",
     .grp "25000 to 34999" (some ["B19001_006E", "B19001_007E"])),
   ("B19001_008E,B19001_009E,B19001_010E",
     .grp "35000 to 49999" (some ["B19001_008E", "B19001_009E", "B19001_010E"])),
   ("B19001_011E,B19001_012E",
     .grp "50000 to 74999" (some ["B19001_011E", "B19001_012E"])),
   ("B19001_013E", .grp "75000 to 99999" none),
   ("B19001_014E,B19001_015E",
     .grp "100000 to 149999" (some ["B19001_014E", "B19001_015E"])),
   ("B19001_016E", .grp "150000 to 199999" none),
   ("B19001_017E", .grp "200000+" none)]

/-- REGION_MAPPING from the source: two-digit state FIPS code to region. -/
def REGION_MAPPING : List (String × String) :=
  [("01", "south"), ("02", "west"), ("04", "west"), ("05", "south"),
   ("06", "west"), ("08", "west"), ("09", "northeast"), ("10", "south"),
   ("11", "south"), ("12", "south"), ("13", "south"), ("15", "west"),
   ("16", "west"), ("17", "midwest"), ("18", "midwest"), ("19", "midwest"),
   ("20", "midwest"), ("21", "south"), ("22", "south"), ("23", "northeast"),
   ("24", "south"), ("25", "northeast"), ("26", "midwest"), ("27", "midwest"),
   ("28", "south"), ("29", "midwest"), ("30", "west"), ("31", "midwest"),
   ("32", "west"), ("33", "northeast"), ("34", "northeast"), ("35", "west"),
   ("36", "northeast"), ("37", "south"), ("38", "midwest"), ("39", "midwest"),
   ("40", "south"), ("41", "west"), ("42", "northeast"), ("44", "northeast"),
   ("45", "south"), ("46", "midwest"), ("47", "south"), ("48", "south"),
   ("49", "west"), ("50", "northeast"), ("51", "south"), ("53", "west"),
   ("54", "south"), ("55", "midwest"), ("56", "west"), ("72", "other")]

/-- Record for each state and income group combination (StateIncome).
The Python float pct is modelled exactly as a rational. -/
structure StateIncome where
  name : String
  region : String
  id : Int
  pct : ℚ
  total : Int
  group : String
deriving DecidableEq, Repr

/-- Errors the transform can raise: ValueError from zip(strict=True),
KeyError from a missing dict field, ValueError from int() on a bad literal,
and ZeroDivisionError from count / total. -/
inductive TransformError where
  | malformedRow
  | keyError (k : String)
  | valueError (s : String)
  | zeroDivision
deriving DecidableEq, Repr

/-- Decimal digit string to value; none when empty or a non-digit occurs.
Models the digit core of Python int(). -/
def digitsVal (cs : List Char) : Option Nat :=
  if cs = [] then none
  else cs.foldl
    (fun acc c =>
      match acc with
      | none => none
      | some n => if c.isDigit then some (n * 10 + (c.toNat - 48)) else none)
    (some 0)

/-- Python int() on a string: optional sign then decimal digits.
(Exotic accepted forms such as surrounding whitespace or underscores
between digits are not modelled; none of the claims depend on them.) -/
def pyInt (s : String) : Option Int :=
  match s.data with
  | '-' :: rest => (digitsVal rest).map (fun n => -(n : Int))
  | '+' :: rest => (digitsVal rest).map (fun n => (n : Int))
  | cs => (digitsVal cs).map (fun n => (n : Int))

/-- Lookup in dict(zip(header, row)): a later occurrence of a duplicate key
overwrites an earlier one, as in a Python dict built left to right. -/
def dictGet (kvs : List (String × String)) (k : String) : Option String :=
  kvs.foldl (fun acc kv => if kv.1 == k then some kv.2 else acc) none

/-- Fetch a field and parse it as an integer, as an Option. -/
def fieldInt (sd : List (String × String)) (k : String) : Option Int :=
  (dictGet sd k).bind pyInt

/-- Round half to even (Python round() tie-breaking) to an integer.
Rat.floor is used rather than the floor notation so that the definition
evaluates by kernel reduction; the two agree definitionally. -/
def roundHalfEven (q : ℚ) : ℤ :=
  let f := Rat.floor q
  let r := q - (f : ℚ)
  if r < 1/2 then f
  else if 1/2 < r then f + 1
  else if f % 2 = 0 then f else f + 1

/-- Python round(x, 3): round half to even at three decimal places. -/
def pyRound3 (q : ℚ) : ℚ := (roundHalfEven (q * 1000) : ℚ) / 1000

/-- state_data[k] with a KeyError on a missing key. -/
def getField (sd : List (String × String)) (k : String) :
    Except TransformError String :=
  match dictGet sd k with
  | none => .error (.keyError k)
  | some v => .ok v

/-- int(state_data[k]): KeyError on a missing key, ValueError on a bad
integer literal. -/
def parseField (sd : List (String × String)) (k : String) :
    Except TransformError Int :=
  match dictGet sd k with
  | none => .error (.keyError k)
  | some v =>
    match pyInt v with
    | none => .error (.valueError v)
    | some n => .ok n

/-- sum(int(state_data[var]) for var in sum_vars), evaluated left to right. -/
def sumVars (sd : List (String × String)) :
    List String → Except TransformError Int
  | [] => .ok 0
  | v :: vs => do
    let a ← parseField sd v
    let b ← sumVars sd vs
    .ok (a + b)

/-- Resolve the raw count of one mapping entry: a single field parse, or the
sum over the sum_vars codes. -/
def countOf (sd : List (String × String)) (code : String) :
    Option (List String) → Except TransformError Int
  | none => parseField sd code
  | some vars => sumVars sd vars

/-- Build one StateIncome record; field expressions are evaluated in the
source keyword order (name, region, id, pct, total, group), so a KeyError on
"NAME" surfaces before the division and the division by zero surfaces before
the record exists. -/
def mkRecord (sd : List (String × String)) (fips : String) (total : Int)
    (g : String) (count : Int) : Except TransformError StateIncome := do
  let nm ← getField sd "NAME"
  let reg ← match REGION_MAPPING.lookup fips with
    | some r => Except.ok r
    | none => Except.error (.keyError fips)
  let i ← match pyInt fips with
    | some n => Except.ok n
    | none => Except.error (.valueError fips)
  if total = 0 then Except.error .zeroDivision
  else Except.ok ⟨nm, reg, i, pyRound3 ((count : ℚ) / (total : ℚ)), total, g⟩

/-- The inner for loop of process_state_records over the INCOME_MAPPING
entries, in insertion order; string-valued entries are skipped by the
isinstance(mapping, dict) test. -/
def processEntries (sd : List (String × String)) (fips : String)
    (total : Int) : List (String × MappingVal) →
    Except TransformError (List StateIncome)
  | [] => .ok []
  | (code, v) :: rest =>
    match v with
    | .str _ => processEntries sd fips total rest
    | .grp g sv => do
      let count ← countOf sd code sv
      let r ← mkRecord sd fips total g count
      let rs ← processEntries sd fips total rest
      .ok (r :: rs)

/-- One iteration of the outer row loop: dict(zip(header, row, strict=True))
raises on a length mismatch, then the state code is read, rows whose state is
absent from REGION_MAPPING are skipped, then the total is parsed and the
mapping entries are processed. -/
def processRow (header row : List String) :
    Except TransformError (List StateIncome) :=
  if row.length ≠ header.length then .error .malformedRow
  else
    let sd := header.zip row
    match dictGet sd "state" with
    | none => .error (.keyError "state")
    | some fips =>
      if (REGION_MAPPING.lookup fips).isNone then .ok []
      else do
        let total ← parseField sd "B19001_001E"
        processEntries sd fips total INCOME_MAPPING

/-- The outer loop of process_state_records: per-row record blocks are
appended in row order. -/
def processData (header : List String) :
    List (List String) → Except TransformError (List StateIncome)
  | [] => .ok []
  | row :: rest => do
    let rs ← processRow header row
    let more ← processData header rest
    .ok (rs ++ more)

/-- order.index(record["group"]) from by_state_income_group. Every group a
record can carry occurs in incomeGroupOrder, so the list.index call of the
source never raises and List.indexOf agrees with it on all reachable inputs. -/
def groupIndex (g : String) : Nat := incomeGroupOrder.indexOf g

/-- The sort order induced by the key tuple
(record id, index of group in incomeGroupOrder), compared lexicographically
as Python compares tuples. -/
def keyLE (a b : StateIncome) : Prop :=
  a.id < b.id ∨ (a.id = b.id ∧ groupIndex a.group ≤ groupIndex b.group)

instance : DecidableRel keyLE := fun a b => by
  unfold keyLE
  exact inferInstance

instance : IsTotal StateIncome keyLE := by
  constructor
  intro a b
  unfold keyLE
  omega

instance : IsTrans StateIncome keyLE := by
  constructor
  intro a b c hab hbc
  unfold keyLE at *
  omega

/-- process_state_records: process all rows, then sort by the key
(state id, income group index). Python sorted is a stable sort, modelled by
the stable List.insertionSort. -/
def process_state_records (cd : CensusResponse) :
    Except TransformError (List StateIncome) :=
  match processData cd.header cd.data with
  | .ok rs => .ok (List.insertionSort keyLE rs)
  | .error e => .error e

/-- Errors of the fetch stage: the HTTPError raised by raise_for_status and
the ValueError raised on a structurally invalid body. -/
inductive FetchError where
  | httpStatus (code : Nat)
  | invalidFormat
deriving DecidableEq, Repr

/-- response.raise_for_status() of the HTTP client: raises exactly for
client-error and server-error status codes, 400 <= status < 600. -/
def raiseForStatus (status : Nat) : Except FetchError Unit :=
  if 400 ≤ status ∧ status < 600 then .error (.httpStatus status) else .ok ()

/-- get_census_data, shallowly embedded over the HTTP status and the parsed
JSON body (none models a missing or undecodable body). -/
def get_census_data (status : Nat) (body : Option (List (List String))) :
    Except FetchError CensusResponse := do
  raiseForStatus status
  match body with
  | none => Except.error .invalidFormat
  | some data =>
    if data = [] ∨ data.length < 2 then Except.error .invalidFormat
    else
      match data with
      | first :: rest => Except.ok ⟨first, rest⟩
      | [] => Except.error .invalidFormat

/-- One hexadecimal digit, lower case, as json.dumps emits in escapes. -/
def hexDigit (n : Nat) : Char :=
  if n < 10 then Char.ofNat (48 + n) else Char.ofNat (87 + n)

/-- Four hexadecimal digits. -/
def hex4 (n : Nat) : String :=
  ⟨[hexDigit (n / 4096 % 16), hexDigit (n / 256 % 16),
    hexDigit (n / 16 % 16), hexDigit (n % 16)]⟩

/-- Escaping of one character by json.dumps with the default ensure_ascii:
the two mandatory escapes, the short control escapes, and a unicode escape
(surrogate pair beyond the basic plane) for every other character outside
the printable ASCII range. -/
def jsonEscapeChar (c : Char) : String :=
  if c = '"' then "\\\""
  else if c = '\\' then "\\\\"
  else if c = '\n' then "\\n"
  else if c = '\t' then "\\t"
  else if c = '\r' then "\\r"
  else if c.toNat = 8 then "\\b"
  else if c.toNat = 12 then "\\f"
  else if c.toNat < 32 ∨ 126 < c.toNat then
    if c.toNat < 65536 then "\\u" ++ hex4 c.toNat
    else
      "\\u" ++ hex4 (55296 + (c.toNat - 65536) / 1024) ++
      "\\u" ++ hex4 (56320 + (c.toNat - 65536) % 1024)
  else String.singleton c

/-- A JSON string literal as json.dumps renders it. -/
def jsonStr (s : String) : String :=
  "\"" ++ String.join (s.data.map jsonEscapeChar) ++ "\""

/-- Left-pad a fractional part to three digits. -/
def pad3 (n : Nat) : String :=
  if n < 10 then "00" ++ toString n
  else if n < 100 then "0" ++ toString n
  else toString n

/-- Drop trailing zero characters. -/
def stripTrailingZeros (s : String) : String :=
  ⟨(s.data.reverse.dropWhile (fun c => c = '0')).reverse⟩

/-- The repr of the pct float in the JSON output. Every pct the transform
produces is an exact multiple of 1/1000, and the shortest round-trip repr of
such a float is its minimal decimal form, which this renders. -/
def renderPct (q : ℚ) : String :=
  let k : Int := Rat.floor (q * 1000)
  let sign := if k < 0 then "-" else ""
  let a : Nat := k.natAbs
  let frac := a % 1000
  sign ++ toString (a / 1000) ++ "." ++
    (if frac = 0 then "0" else stripTrailingZeros (pad3 frac))

/-- One StateIncome dict as json.dumps(..., indent=2) renders it inside the
top-level array: keys in construction order (name, region, id, pct, total,
group), values at four spaces, the closing brace at two. -/
def jsonRecord (r : StateIncome) : String :=
  "\x7b\n    \"name\": " ++ jsonStr r.name ++
  ",\n    \"region\": " ++ jsonStr r.region ++
  ",\n    \"id\": " ++ toString r.id ++
  ",\n    \"pct\": " ++ renderPct r.pct ++
  ",\n    \"total\": " ++ toString r.total ++
  ",\n    \"group\": " ++ jsonStr r.group ++
  "\n  \x7d"

/-- json.dumps(records, indent=2): the element separator with an indent is a
comma, a newline and the two-space indent; no trailing newline is appended. -/
def json_dumps (records : List StateIncome) : String :=
  match records with
  | [] => "[]"
  | _ =>
    "[\n" ++
    String.intercalate ",\n" (records.map (fun r => "  " ++ jsonRecord r)) ++
    "\n]"

/-- A file-system effect of the script. -/
inductive FsOp where
  | mkdirParents (path : List String)
  | writeText (path : List String) (content : String)
deriving DecidableEq, Repr

/-- OUTPUT_FILE = REPO_ROOT / "data" / "income.json", as path segments. -/
def OUTPUT_FILE : List String := ["data", "income.json"]

/-- write_json(data, output): one UTF-8 text write of
json.dumps(data, indent=2); the newline="\x5cn" argument only fixes the
translation of newline characters already in the string and appends
nothing. -/
def write_json (records : List StateIncome) (output : List String) : FsOp :=
  .writeText output (json_dumps records)

/-- The file-system effects of main() after the transform, in program order:
OUTPUT_FILE.parent.mkdir(parents=True, exist_ok=True), then the write. -/
def mainWriteOps (records : List StateIncome) : List FsOp :=
  [.mkdirParents ["data"], write_json records OUTPUT_FILE]

/-- The header of the census response for the variables the mapping reads:
the state code, the state name and the seventeen B19001 fields. -/
def censusHeader : List String :=
  ["state", "NAME",
   "B19001_001E", "B19001_002E", "B19001_003E", "B19001_004E", "B19001_005E",
   "B19001_006E", "B19001_007E", "B19001_008E", "B19001_009E", "B19001_010E",
   "B19001_011E", "B19001_012E", "B19001_013E", "B19001_014E", "B19001_015E",
   "B19001_016E", "B19001_017E"]

/-- The seventeen numeric fields the transform parses. -/
def countFields : List String :=
  ["B19001_001E", "B19001_002E", "B19001_003E", "B19001_004E", "B19001_005E",
   "B19001_006E", "B19001_007E", "B19001_008E", "B19001_009E", "B19001_010E",
   "B19001_011E", "B19001_012E", "B19001_013E", "B19001_014E", "B19001_015E",
   "B19001_016E", "B19001_017E"]

/-- Whether a row carries a state code that is a key of REGION_MAPPING. -/
def inRegion (header row : List String) : Bool :=
  match dictGet (header.zip row) "state" with
  | some fips => (REGION_MAPPING.lookup fips).isSome
  | none => false

/-- Whether a row would emit records with the given state id. -/
def emitsId (header row : List String) (i : Int) : Bool :=
  match dictGet (header.zip row) "state" with
  | some fips => (REGION_MAPPING.lookup fips).isSome && pyInt fips == some i
  | none => false

/-- Structural validity of one row, the precondition the spec names: the row
zips against the header, a state field exists, and, when the state is in the
region table, the name field exists, the state code and all mapped fields
parse as integers, and the total is nonzero. -/
def rowValid (header row : List String) : Bool :=
  let sd := header.zip row
  row.length == header.length &&
  match dictGet sd "state" with
  | none => false
  | some fips =>
    (REGION_MAPPING.lookup fips).isNone ||
    ((dictGet sd "NAME").isSome &&
     (pyInt fips).isSome &&
     countFields.all (fun k => (fieldInt sd k).isSome) &&
     fieldInt sd "B19001_001E" != some 0)

/-- The resolved count of one mapping entry, as an Option. -/
def optCountOf (sd : List (String × String)) (code : String) :
    Option (List String) → Option Int
  | none => fieldInt sd code
  | some vars => vars.foldr (fun v acc => do
      let a ← fieldInt sd v
      let b ← acc
      some (a + b)) (some 0)

/-- The ten bracket counts of a row in mapping order, when they all parse. -/
def entryCounts (sd : List (String × String)) :
    List (String × MappingVal) → Option (List Int)
  | [] => some []
  | (code, v) :: rest =>
    match v with
    | .str _ => entryCounts sd rest
    | .grp _ sv => do
      let c ← optCountOf sd code sv
      let cs ← entryCounts sd rest
      some (c :: cs)

/-- The ten bracket counts of a row. -/
def rowCounts (header row : List String) : Option (List Int) :=
  entryCounts (header.zip row) INCOME_MAPPING

/-- Semantic validity of the census numbers in one row: every bracket count
is nonnegative and the ten brackets partition the reported household total
(B19001_001E equals their sum). -/
def rowCountsOk (header row : List String) : Bool :=
  match rowCounts header row, fieldInt (header.zip row) "B19001_001E" with
  | some cs, some t => cs.all (fun c => decide (0 ≤ c)) && (cs.sum == t)
  | _, _ => false

/-- The ten groups in INCOME_MAPPING insertion order (the order records are
emitted before sorting). -/
def mappingGroups : List String :=
  ["<10000", "10000 to 14999", "15000 to 24999", "25000 to 34999",
   "35000 to 49999", "50000 to 74999", "75000 to 99999",
   "100000 to 149999", "150000 to 199999", "200000+"]

/-- The records one in-region row produces, given its name, region, id,
total and the ten bracket counts. -/
def buildRecords (nm reg : String) (i t : Int) (cs : List Int) :
    List StateIncome :=
  List.zipWith
    (fun (g : String) (c : Int) =>
      ⟨nm, reg, i, pyRound3 ((c : ℚ) / (t : ℚ)), t, g⟩)
    mappingGroups cs

/-- A well-formed single-state data row used as a concrete test vector:
Alabama (FIPS 01), total 1000, sixteen raw bracket fields whose ten grouped
counts are each 100 and sum to the total. -/
def sampleRow : List String :=
  ["01", "Alabama", "1000", "100", "100", "50", "50", "50", "50", "34",
   "33", "33", "50", "50", "100", "50", "50", "100", "100"]

/-- A single-row response built from sampleRow. -/
def sampleCd : CensusResponse := ⟨censusHeader, [sampleRow]⟩

/-- sampleRow with a zero household total. -/
def zeroTotalRow : List String :=
  ["01", "Alabama", "0", "100", "100", "50", "50", "50", "50", "34",
   "33", "33", "50", "50", "100", "50", "50", "100", "100"]

/-- A malformed row: shorter than the header. -/
def shortRow : List String := ["01"]

/-- A territory row: state code 60 is not a key of REGION_MAPPING. -/
def territoryRow : List String :=
  ["60", "American Samoa", "1000", "100", "100", "50", "50", "50", "50",
   "34", "33", "33", "50", "50", "100", "50", "50", "100", "100"]

/-- The transform output on sampleCd (the empty list is never reached:
the run succeeds, as the witnesses prove). -/
def sampleOut : List StateIncome :=
  (process_state_records sampleCd).toOption.getD []

deriving instance DecidableEq for Except

unseal Rat.mul Rat.inv Rat.add Rat.sub

section SanityChecks

example : pyInt "01" = some 1 := by decide
example : pyInt "-12" = some (-12) := by decide
example : pyInt "" = none := by decide
example : pyInt "1a" = none := by decide
example : pyRound3 (100 / 1000 : ℚ) = 1/10 := by decide
example : pyRound3 (1 / 16 : ℚ) = 62/1000 := by decide
example : pyRound3 (3 / 16 : ℚ) = 188/1000 := by decide
example : dictGet [("a", "1"), ("b", "2"), ("a", "3")] "a" = some "3" := by decide
example : (REGION_MAPPING.lookup "01") = some "south" := by decide
example : (REGION_MAPPING.lookup "60") = none := by decide
example : groupIndex "50000 to 74999" = 6 := by decide
example : groupIndex "75000 to 99999" = 5 := by decide

example :
    json_dumps [] = "[]" := by decide

example :
    renderPct (1/10 : ℚ) = "0.1" := by decide

example :
    renderPct (0 : ℚ) = "0.0" := by decide

example :
    renderPct (62/1000 : ℚ) = "0.062" := by decide

example :
    renderPct (-(3/2) : ℚ) = "-1.5" := by decide

example :
    jsonStr "a\"b" = "\"a\\\"b\"" := by decide

example :
    rowValid censusHeader
      ["01", "Alabama", "1000", "100", "100", "50", "50", "50", "50", "34",
       "33", "33", "50", "50", "100", "50", "50", "100", "100"] = true := by
  decide

example :
    rowCountsOk censusHeader
      ["01", "Alabama", "1000", "100", "100", "50", "50", "50", "50", "34",
       "33", "33", "50", "50", "100", "50", "50", "100", "100"] = true := by
  decide

example :
    processRow censusHeader
      ["01", "Alabama", "1000", "100", "100", "50", "50", "50", "50", "34",
       "33", "33", "50", "50", "100", "50", "50", "100", "100"] =
    .ok (buildRecords "Alabama" "south" 1 1000
      [100, 100, 100, 100, 100, 100, 100, 100, 100, 100]) := by decide

end SanityChecks

theorem ratFloor_eq (q : ℚ) : Rat.floor q = ⌊q⌋ := rfl

@[simp] theorem except_bind_ok {ε α β : Type} (a : α) (f : α → Except ε β) :
    (Except.ok a >>= f : Except ε β) = f a := rfl

@[simp] theorem except_bind_error {ε α β : Type} (e : ε)
    (f : α → Except ε β) : (Except.error e >>= f : Except ε β) = .error e :=
  rfl

theorem parseField_eq {sd : List (String × String)} {k : String} {n : Int}
    (h : fieldInt sd k = some n) : parseField sd k = .ok n := by
  unfold fieldInt at h
  unfold parseField
  cases hd : dictGet sd k with
  | none => simp [hd] at h
  | some v =>
    simp only [hd, Option.some_bind] at h
    simp [h]

theorem getField_eq {sd : List (String × String)} {k v : String}
    (h : dictGet sd k = some v) : getField sd k = .ok v := by
  unfold getField
  rw [h]

/-- Workhorse: a row whose fields all parse and whose state is in the region
table produces exactly the ten records of buildRecords, and its bracket
counts are the ten sums of its raw fields, in mapping order. -/
theorem processRow_ok (header row : List String) (fips reg nm : String)
    (i t c2 c3 c4 c5 c6 c7 c8 c9 c10 c11 c12 c13 c14 c15 c16 c17 : Int)
    (hlen : row.length = header.length)
    (hstate : dictGet (header.zip row) "state" = some fips)
    (hreg : REGION_MAPPING.lookup fips = some reg)
    (hname : dictGet (header.zip row) "NAME" = some nm)
    (hfips : pyInt fips = some i)
    (ht : fieldInt (header.zip row) "B19001_001E" = some t)
    (ht0 : t ≠ 0)
    (h2 : fieldInt (header.zip row) "B19001_002E" = some c2)
    (h3 : fieldInt (header.zip row) "B19001_003E" = some c3)
    (h4 : fieldInt (header.zip row) "B19001_004E" = some c4)
    (h5 : fieldInt (header.zip row) "B19001_005E" = some c5)
    (h6 : fieldInt (header.zip row) "B19001_006E" = some c6)
    (h7 : fieldInt (header.zip row) "B19001_007E" = some c7)
    (h8 : fieldInt (header.zip row) "B19001_008E" = some c8)
    (h9 : fieldInt (header.zip row) "B19001_009E" = some c9)
    (h10 : fieldInt (header.zip row) "B19001_010E" = some c10)
    (h11 : fieldInt (header.zip row) "B19001_011E" = some c11)
    (h12 : fieldInt (header.zip row) "B19001_012E" = some c12)
    (h13 : fieldInt (header.zip row) "B19001_013E" = some c13)
    (h14 : fieldInt (header.zip row) "B19001_014E" = some c14)
    (h15 : fieldInt (header.zip row) "B19001_015E" = some c15)
    (h16 : fieldInt (header.zip row) "B19001_016E" = some c16)
    (h17 : fieldInt (header.zip row) "B19001_017E" = some c17) :
    processRow header row =
      .ok (buildRecords nm reg i t
        [c2, c3, c4 + c5, c6 + c7, c8 + (c9 + c10), c11 + c12, c13,
         c14 + c15, c16, c17]) ∧
    rowCounts header row =
      some [c2, c3, c4 + c5, c6 + c7, c8 + (c9 + c10), c11 + c12, c13,
        c14 + c15, c16, c17] := by
  constructor
  · simp only [processRow, if_neg (show ¬row.length ≠ header.length by omega),
      hstate, hreg, Option.isNone_some, Bool.false_eq_true, if_false,
      INCOME_MAPPING, processEntries, countOf, sumVars, mkRecord,
      parseField_eq ht, parseField_eq h2, parseField_eq h3,
      parseField_eq h4, parseField_eq h5, parseField_eq h6,
      parseField_eq h7, parseField_eq h8, parseField_eq h9,
      parseField_eq h10, parseField_eq h11, parseField_eq h12,
      parseField_eq h13, parseField_eq h14, parseField_eq h15,
      parseField_eq h16, parseField_eq h17, getField_eq hname, hfips,
      except_bind_ok, if_neg ht0]
    simp [buildRecords, mappingGroups]
  · simp only [rowCounts, INCOME_MAPPING, entryCounts, optCountOf,
      List.foldr, h2, h3, h4, h5, h6, h7, h8, h9, h10, h11, h12, h13, h14,
      h15, h16, h17, Option.bind_some, Option.some_bind]
    simp

/-- A row whose state code is not a key of the region table is skipped. -/
theorem processRow_skip (header row : List String) (fips : String)
    (hlen : row.length = header.length)
    (hstate : dictGet (header.zip row) "state" = some fips)
    (hl : REGION_MAPPING.lookup fips = none) :
    processRow header row = .ok [] := by
  simp only [processRow, if_neg (show ¬row.length ≠ header.length by omega),
    hstate, hl, Option.isNone_none, if_true]

/-- Evaluation of processRow on a structurally valid row: skipped rows give
the empty block, in-region rows give exactly the buildRecords block of their
bracket counts. -/
theorem processRow_of_valid (header row : List String)
    (h : rowValid header row = true) :
    (inRegion header row = false → processRow header row = .ok []) ∧
    (inRegion header row = true →
      ∃ fips reg nm i t cs,
        dictGet (header.zip row) "state" = some fips ∧
        REGION_MAPPING.lookup fips = some reg ∧
        pyInt fips = some i ∧
        dictGet (header.zip row) "NAME" = some nm ∧
        fieldInt (header.zip row) "B19001_001E" = some t ∧ t ≠ 0 ∧
        rowCounts header row = some cs ∧ cs.length = 10 ∧
        processRow header row = .ok (buildRecords nm reg i t cs)) := by
  unfold rowValid at h
  simp only [Bool.and_eq_true, beq_iff_eq] at h
  obtain ⟨hlen, h⟩ := h
  cases hstate : dictGet (header.zip row) "state" with
  | none => rw [hstate] at h; simp at h
  | some fips =>
    rw [hstate] at h
    cases hl : REGION_MAPPING.lookup fips with
    | none =>
      constructor
      · intro _
        exact processRow_skip header row fips hlen hstate hl
      · intro hreg
        unfold inRegion at hreg
        rw [hstate] at hreg
        simp [hl] at hreg
    | some reg =>
      constructor
      · intro hreg
        unfold inRegion at hreg
        rw [hstate] at hreg
        simp [hl] at hreg
      · intro _
        simp only [hl, Option.isNone_some, Bool.false_or, Bool.and_eq_true,
          bne_iff_ne, ne_eq, List.all_eq_true] at h
        obtain ⟨⟨⟨hnm, hi⟩, hall⟩, ht0⟩ := h
        obtain ⟨nm, hnm⟩ := Option.isSome_iff_exists.mp hnm
        obtain ⟨i, hi⟩ := Option.isSome_iff_exists.mp hi
        have g1 := Option.isSome_iff_exists.mp
          (hall "B19001_001E" (by decide))
        obtain ⟨t, ht⟩ := g1
        obtain ⟨c2, h2⟩ := Option.isSome_iff_exists.mp
          (hall "B19001_002E" (by decide))
        obtain ⟨c3, h3⟩ := Option.isSome_iff_exists.mp
          (hall "B19001_003E" (by decide))
        obtain ⟨c4, h4⟩ := Option.isSome_iff_exists.mp
          (hall "B19001_004E" (by decide))
        obtain ⟨c5, h5⟩ := Option.isSome_iff_exists.mp
          (hall "B19001_005E" (by decide))
        obtain ⟨c6, h6⟩ := Option.isSome_iff_exists.mp
          (hall "B19001_006E" (by decide))
        obtain ⟨c7, h7⟩ := Option.isSome_iff_exists.mp
          (hall "B19001_007E" (by decide))
        obtain ⟨c8, h8⟩ := Option.isSome_iff_exists.mp
          (hall "B19001_008E" (by decide))
        obtain ⟨c9, h9⟩ := Option.isSome_iff_exists.mp
          (hall "B19001_009E" (by decide))
        obtain ⟨c10, h10⟩ := Option.isSome_iff_exists.mp
          (hall "B19001_010E" (by decide))
        obtain ⟨c11, h11⟩ := Option.isSome_iff_exists.mp
          (hall "B19001_011E" (by decide))
        obtain ⟨c12, h12⟩ := Option.isSome_iff_exists.mp
          (hall "B19001_012E" (by decide))
        obtain ⟨c13, h13⟩ := Option.isSome_iff_exists.mp
          (hall "B19001_013E" (by decide))
        obtain ⟨c14, h14⟩ := Option.isSome_iff_exists.mp
          (hall "B19001_014E" (by decide))
        obtain ⟨c15, h15⟩ := Option.isSome_iff_exists.mp
          (hall "B19001_015E" (by decide))
        obtain ⟨c16, h16⟩ := Option.isSome_iff_exists.mp
          (hall "B19001_016E" (by decide))
        obtain ⟨c17, h17⟩ := Option.isSome_iff_exists.mp
          (hall "B19001_017E" (by decide))
        rw [ht] at ht0
        have ht0' : t ≠ 0 := by
          intro e
          exact ht0 (by rw [e])
        have main := processRow_ok header row fips reg nm i t
          c2 c3 c4 c5 c6 c7 c8 c9 c10 c11 c12 c13 c14 c15 c16 c17
          hlen hstate hl hnm hi ht ht0' h2 h3 h4 h5 h6 h7 h8 h9 h10 h11
          h12 h13 h14 h15 h16 h17
        exact ⟨fips, reg, nm, i, t,
          [c2, c3, c4 + c5, c6 + c7, c8 + (c9 + c10), c11 + c12, c13,
           c14 + c15, c16, c17],
          rfl, hl, hi, hnm, ht, ht0', main.2, by simp, main.1⟩

theorem zipRecords_map_group (nm reg : String) (i t : Int)
    (gs : List String) :
    ∀ cs : List Int, gs.length = cs.length →
      (List.zipWith
        (fun (g : String) (c : Int) =>
          (⟨nm, reg, i, pyRound3 ((c : ℚ) / (t : ℚ)), t, g⟩ : StateIncome))
        gs cs).map (fun r => r.group) = gs := by
  induction gs with
  | nil => intro cs h; simp
  | cons g gs ih =>
    intro cs h
    cases cs with
    | nil => simp at h
    | cons c cs =>
      simp only [List.zipWith_cons_cons, List.map_cons]
      rw [ih cs (by simpa using h)]

theorem zipRecords_map_pct (nm reg : String) (i t : Int)
    (cs : List Int) :
    ∀ gs : List String, gs.length = cs.length →
      (List.zipWith
        (fun (g : String) (c : Int) =>
          (⟨nm, reg, i, pyRound3 ((c : ℚ) / (t : ℚ)), t, g⟩ : StateIncome))
        gs cs).map (fun r => r.pct) =
      cs.map (fun (c : Int) => pyRound3 ((c : ℚ) / (t : ℚ))) := by
  induction cs with
  | nil => intro gs h; simp
  | cons c cs ih =>
    intro gs h
    cases gs with
    | nil => simp at h
    | cons g gs =>
      simp only [List.zipWith_cons_cons, List.map_cons]
      rw [ih gs (by simpa using h)]

theorem zipRecords_mem (nm reg : String) (i t : Int) (r : StateIncome)
    (gs : List String) :
    ∀ cs : List Int,
      r ∈ List.zipWith
        (fun (g : String) (c : Int) =>
          (⟨nm, reg, i, pyRound3 ((c : ℚ) / (t : ℚ)), t, g⟩ : StateIncome))
        gs cs →
      ∃ g c, g ∈ gs ∧ c ∈ cs ∧
        r = ⟨nm, reg, i, pyRound3 ((c : ℚ) / (t : ℚ)), t, g⟩ := by
  induction gs with
  | nil => intro cs h; simp at h
  | cons g gs ih =>
    intro cs h
    cases cs with
    | nil => simp at h
    | cons c cs =>
      simp only [List.zipWith_cons_cons, List.mem_cons] at h
      cases h with
      | inl he => exact ⟨g, c, List.mem_cons_self .., List.mem_cons_self .., he⟩
      | inr hm =>
        obtain ⟨g2, c2, hg, hc, he⟩ := ih cs hm
        exact ⟨g2, c2, List.mem_cons_of_mem _ hg, List.mem_cons_of_mem _ hc,
          he⟩

theorem buildRecords_length (nm reg : String) (i t : Int) (cs : List Int)
    (h : cs.length = 10) : (buildRecords nm reg i t cs).length = 10 := by
  simp [buildRecords, mappingGroups, h]

theorem buildRecords_map_group (nm reg : String) (i t : Int) (cs : List Int)
    (h : cs.length = 10) :
    (buildRecords nm reg i t cs).map (fun r => r.group) = mappingGroups :=
  zipRecords_map_group nm reg i t mappingGroups cs (by simp [mappingGroups, h])

theorem buildRecords_map_pct (nm reg : String) (i t : Int) (cs : List Int)
    (h : cs.length = 10) :
    (buildRecords nm reg i t cs).map (fun r => r.pct) =
      cs.map (fun (c : Int) => pyRound3 ((c : ℚ) / (t : ℚ))) :=
  zipRecords_map_pct nm reg i t cs mappingGroups (by simp [mappingGroups, h])

theorem buildRecords_mem (nm reg : String) (i t : Int) (cs : List Int)
    (r : StateIncome) (h : r ∈ buildRecords nm reg i t cs) :
    r.name = nm ∧ r.region = reg ∧ r.id = i ∧ r.total = t ∧
    r.group ∈ mappingGroups ∧
    ∃ c ∈ cs, r.pct = pyRound3 ((c : ℚ) / (t : ℚ)) := by
  obtain ⟨g, c, hg, hc, he⟩ := zipRecords_mem nm reg i t r mappingGroups cs h
  subst he
  exact ⟨rfl, rfl, rfl, rfl, hg, c, hc, rfl⟩

/-- If processData succeeds, every row was processed without error. -/
theorem processData_ok_all (header : List String) :
    ∀ (data : List (List String)) (em : List StateIncome),
      processData header data = .ok em →
      ∀ row ∈ data, ∃ rs, processRow header row = .ok rs := by
  intro data
  induction data with
  | nil => intro em _ row hrow; simp at hrow
  | cons r rest ih =>
    intro em hok row hrow
    unfold processData at hok
    cases hr : processRow header r with
    | error e => rw [hr] at hok; simp at hok
    | ok rs =>
      rw [hr] at hok
      simp only [except_bind_ok] at hok
      cases hrest : processData header rest with
      | error e => rw [hrest] at hok; simp at hok
      | ok more =>
        cases List.mem_cons.mp hrow with
        | inl he => exact ⟨rs, he ▸ hr⟩
        | inr hm => exact ih more hrest row hm

theorem processData_cons (header row : List String)
    (rest : List (List String)) :
    processData header (row :: rest) =
      processRow header row >>= fun rs =>
        processData header rest >>= fun more => Except.ok (rs ++ more) := rfl

/-- Inserting a row that is skipped does not change the transform result. -/
theorem processData_skip_middle (header row : List String)
    (h : processRow header row = .ok []) :
    ∀ pre post : List (List String),
      processData header (pre ++ row :: post) =
        processData header (pre ++ post) := by
  intro pre
  induction pre with
  | nil =>
    intro post
    rw [List.nil_append, List.nil_append, processData_cons, h]
    simp only [except_bind_ok]
    cases processData header post with
    | error e => rfl
    | ok more => simp
  | cons p pre ih =>
    intro post
    rw [List.cons_append, List.cons_append, processData_cons,
      processData_cons, ih post]

theorem roundHalfEven_dist (q : ℚ) : |(roundHalfEven q : ℚ) - q| ≤ 1/2 := by
  unfold roundHalfEven
  rw [ratFloor_eq]
  have h1 : ((⌊q⌋ : ℤ) : ℚ) ≤ q := Int.floor_le q
  have h2 : q < (⌊q⌋ : ℚ) + 1 := Int.lt_floor_add_one q
  by_cases hc : q - (⌊q⌋ : ℚ) < 1/2
  · rw [if_pos hc, abs_le]
    constructor <;> linarith
  · rw [if_neg hc]
    by_cases hc2 : 1/2 < q - (⌊q⌋ : ℚ)
    · rw [if_pos hc2, abs_le]
      push_cast
      constructor <;> linarith
    · rw [if_neg hc2]
      have he : q - (⌊q⌋ : ℚ) = 1/2 := le_antisymm (not_lt.mp hc2) (not_lt.mp hc)
      by_cases hp : ⌊q⌋ % 2 = 0
      · rw [if_pos hp, abs_le]
        constructor <;> linarith
      · rw [if_neg hp, abs_le]
        push_cast
        constructor <;> linarith

theorem roundHalfEven_nonneg (q : ℚ) (h : 0 ≤ q) : 0 ≤ roundHalfEven q := by
  unfold roundHalfEven
  rw [ratFloor_eq]
  have h0 : 0 ≤ ⌊q⌋ := Int.floor_nonneg.mpr h
  by_cases hc : q - (⌊q⌋ : ℚ) < 1/2
  · rw [if_pos hc]; exact h0
  · rw [if_neg hc]
    by_cases hc2 : 1/2 < q - (⌊q⌋ : ℚ)
    · rw [if_pos hc2]; omega
    · rw [if_neg hc2]
      by_cases hp : ⌊q⌋ % 2 = 0
      · rw [if_pos hp]; exact h0
      · rw [if_neg hp]; omega

theorem roundHalfEven_le_int (q : ℚ) (n : ℤ) (h : q ≤ (n : ℚ)) :
    roundHalfEven q ≤ n := by
  unfold roundHalfEven
  rw [ratFloor_eq]
  have hfn : ⌊q⌋ ≤ n := by
    have := Int.floor_le_floor h
    simpa using this
  have h1 : ((⌊q⌋ : ℤ) : ℚ) ≤ q := Int.floor_le q
  by_cases hc : q - (⌊q⌋ : ℚ) < 1/2
  · rw [if_pos hc]; exact hfn
  · rw [if_neg hc]
    have hlt : ⌊q⌋ < n := by
      have hq : (⌊q⌋ : ℚ) + 1/2 ≤ q := by linarith [not_lt.mp hc]
      have : (⌊q⌋ : ℚ) < (n : ℚ) := by linarith
      exact_mod_cast this
    by_cases hc2 : 1/2 < q - (⌊q⌋ : ℚ)
    · rw [if_pos hc2]; omega
    · rw [if_neg hc2]
      by_cases hp : ⌊q⌋ % 2 = 0
      · rw [if_pos hp]; exact hfn
      · rw [if_neg hp]; omega

theorem pyRound3_dist (q : ℚ) : |pyRound3 q - q| ≤ 1/2000 := by
  unfold pyRound3
  have h := roundHalfEven_dist (q * 1000)
  rw [abs_le] at h ⊢
  obtain ⟨hl, hr⟩ := h
  constructor <;> [linarith; linarith]

theorem pyRound3_nonneg (q : ℚ) (h : 0 ≤ q) : 0 ≤ pyRound3 q := by
  unfold pyRound3
  have h0 : 0 ≤ roundHalfEven (q * 1000) :=
    roundHalfEven_nonneg _ (by positivity)
  positivity

theorem pyRound3_le_one (q : ℚ) (h : q ≤ 1) : pyRound3 q ≤ 1 := by
  unfold pyRound3
  have h0 : roundHalfEven (q * 1000) ≤ 1000 :=
    roundHalfEven_le_int _ 1000 (by push_cast; linarith)
  rw [div_le_one (by norm_num)]
  exact_mod_cast h0

/-- An element of a list of nonnegative integers is at most the list sum. -/
theorem mem_le_sum_int (cs : List Int) (hpos : ∀ c ∈ cs, 0 ≤ c) :
    ∀ c ∈ cs, c ≤ cs.sum := by
  induction cs with
  | nil => intro c hc; simp at hc
  | cons a cs ih =>
    intro c hc
    have ha : 0 ≤ a := hpos a (List.mem_cons_self ..)
    have hsum : 0 ≤ cs.sum :=
      List.sum_nonneg (fun x hx => hpos x (List.mem_cons_of_mem _ hx))
    cases List.mem_cons.mp hc with
    | inl he => subst he; simp only [List.sum_cons]; omega
    | inr hm =>
      have := ih (fun x hx => hpos x (List.mem_cons_of_mem _ hx)) c hm
      simp only [List.sum_cons]
      omega

/-- The total rounding error over a list of brackets is at most the number
of brackets times half of the rounding unit. -/
theorem sum_pyRound3_dist (t : ℤ) :
    ∀ cs : List ℤ,
      |(cs.map (fun (c : Int) => pyRound3 ((c : ℚ) / (t : ℚ)))).sum -
        ((cs.sum : ℚ) / (t : ℚ))| ≤ (cs.length : ℚ) * (1/2000) := by
  intro cs
  induction cs with
  | nil => simp
  | cons c cs ih =>
    simp only [List.map_cons, List.sum_cons, List.length_cons]
    have hd := pyRound3_dist ((c : ℚ) / (t : ℚ))
    have hsplit : (((c + cs.sum : ℤ) : ℚ)) / (t : ℚ) =
        (c : ℚ) / (t : ℚ) + ((cs.sum : ℤ) : ℚ) / (t : ℚ) := by
      rw [Int.cast_add, add_div]
    calc |pyRound3 ((c : ℚ) / (t : ℚ)) +
          (cs.map (fun (c : Int) => pyRound3 ((c : ℚ) / (t : ℚ)))).sum -
          (((c + cs.sum : ℤ) : ℚ) / (t : ℚ))|
        = |(pyRound3 ((c : ℚ) / (t : ℚ)) - (c : ℚ) / (t : ℚ)) +
            ((cs.map (fun (c : Int) => pyRound3 ((c : ℚ) / (t : ℚ)))).sum -
              ((cs.sum : ℤ) : ℚ) / (t : ℚ))| := by
          rw [hsplit]; congr 1; ring
      _ ≤ |pyRound3 ((c : ℚ) / (t : ℚ)) - (c : ℚ) / (t : ℚ)| +
            |(cs.map (fun (c : Int) => pyRound3 ((c : ℚ) / (t : ℚ)))).sum -
              ((cs.sum : ℤ) : ℚ) / (t : ℚ)| := abs_add _ _
      _ ≤ 1/2000 + (cs.length : ℚ) * (1/2000) := by
          exact add_le_add hd ih
      _ = (((cs.length + 1 : ℕ)) : ℚ) * (1/2000) := by push_cast; ring

theorem emitsId_inRegion (header row : List String) (i : Int)
    (h : emitsId header row i = true) : inRegion header row = true := by
  unfold emitsId at h
  unfold inRegion
  cases hstate : dictGet (header.zip row) "state" with
  | none => rw [hstate] at h; simp at h
  | some fips =>
    rw [hstate] at h
    simp only [Bool.and_eq_true] at h
    simp [h.1]

/-- Filtering the block of one valid row by a state id: an emitting row
keeps all ten records, any other row contributes nothing. -/
theorem processRow_filter (header row : List String) (i : Int)
    (h : rowValid header row = true) :
    (emitsId header row i = false →
      ∃ rs, processRow header row = .ok rs ∧
        rs.filter (fun r => r.id == i) = []) ∧
    (emitsId header row i = true →
      ∃ nm reg t cs,
        rowCounts header row = some cs ∧
        fieldInt (header.zip row) "B19001_001E" = some t ∧ t ≠ 0 ∧
        cs.length = 10 ∧
        processRow header row = .ok (buildRecords nm reg i t cs) ∧
        (buildRecords nm reg i t cs).filter (fun r => r.id == i) =
          buildRecords nm reg i t cs) := by
  have hb := processRow_of_valid header row h
  cases hreg : inRegion header row with
  | false =>
    constructor
    · intro _
      exact ⟨[], hb.1 hreg, rfl⟩
    · intro he
      rw [emitsId_inRegion header row i he] at hreg
      simp at hreg
  | true =>
    obtain ⟨fips, reg, nm, i0, t, cs, hstate, hl, hi0, hnm, ht, ht0, hcs,
      hcs10, hrow⟩ := hb.2 hreg
    constructor
    · intro he
      refine ⟨buildRecords nm reg i0 t cs, hrow, ?_⟩
      unfold emitsId at he
      rw [hstate] at he
      simp only [hl, Option.isSome_some, Bool.true_and, beq_eq_false_iff_ne,
        ne_eq] at he
      rw [List.filter_eq_nil_iff]
      intro r hr
      have hid := (buildRecords_mem nm reg i0 t cs r hr).2.2.1
      simp only [hid, beq_iff_eq]
      rw [hi0] at he
      intro hie
      exact he (by rw [hie])
    · intro he
      unfold emitsId at he
      rw [hstate] at he
      simp only [hl, Option.isSome_some, Bool.true_and, beq_iff_eq] at he
      rw [hi0] at he
      have hii : i0 = i := by
        injection he with he2
      subst hii
      refine ⟨nm, reg, t, cs, hcs, ht, ht0, hcs10, hrow, ?_⟩
      rw [List.filter_eq_self]
      intro r hr
      have hid := (buildRecords_mem nm reg i0 t cs r hr).2.2.1
      simp [hid]

/-- A data set in which no row emits the given id contributes nothing to the
filtered output. -/
theorem processData_filter_none (header : List String) (i : Int) :
    ∀ data : List (List String),
      (∀ row ∈ data, rowValid header row = true) →
      data.countP (fun row => emitsId header row i) = 0 →
      ∀ em, processData header data = .ok em →
        em.filter (fun r => r.id == i) = [] := by
  intro data
  induction data with
  | nil =>
    intro _ _ em hem
    unfold processData at hem
    injection hem with he
    rw [← he]
    rfl
  | cons row rest ih =>
    intro hv hcount em hem
    have hrow0 : emitsId header row i = false := by
      rw [List.countP_cons] at hcount
      by_cases hb : emitsId header row i = true
      · rw [if_pos hb] at hcount; omega
      · simpa using hb
    obtain ⟨rs, hrs, hfil⟩ :=
      (processRow_filter header row i (hv row (List.mem_cons_self ..))).1
        hrow0
    rw [processData_cons, hrs] at hem
    simp only [except_bind_ok] at hem
    cases hrest : processData header rest with
    | error e => rw [hrest] at hem; simp at hem
    | ok more =>
      rw [hrest] at hem
      simp only [except_bind_ok] at hem
      injection hem with he
      rw [← he, List.filter_append, hfil, List.nil_append]
      refine ih (fun r hr => hv r (List.mem_cons_of_mem _ hr)) ?_ more hrest
      rw [List.countP_cons] at hcount
      omega

/-- When exactly one row of a valid data set emits the id, the filtered
concatenation of all blocks is exactly that row's ten records. -/
theorem processData_filter_one (header : List String) (i : Int) :
    ∀ data : List (List String),
      (∀ row ∈ data, rowValid header row = true) →
      data.countP (fun row => emitsId header row i) = 1 →
      ∀ em, processData header data = .ok em →
        ∃ row0 nm reg t cs,
          row0 ∈ data ∧ emitsId header row0 i = true ∧
          rowCounts header row0 = some cs ∧
          fieldInt (header.zip row0) "B19001_001E" = some t ∧ t ≠ 0 ∧
          cs.length = 10 ∧
          em.filter (fun r => r.id == i) = buildRecords nm reg i t cs := by
  intro data
  induction data with
  | nil => intro _ hcount; simp at hcount
  | cons row rest ih =>
    intro hv hcount em hem
    rw [processData_cons] at hem
    cases hrs : processRow header row with
    | error e => rw [hrs] at hem; simp at hem
    | ok rs =>
      rw [hrs] at hem
      simp only [except_bind_ok] at hem
      cases hrest : processData header rest with
      | error e => rw [hrest] at hem; simp at hem
      | ok more =>
        rw [hrest] at hem
        simp only [except_bind_ok] at hem
        injection hem with he
        subst he
        rw [List.countP_cons] at hcount
        by_cases hb : emitsId header row i = true
        · rw [if_pos hb] at hcount
          obtain ⟨nm, reg, t, cs, hcs, ht, ht0, hcs10, hrow, hfil⟩ :=
            (processRow_filter header row i
              (hv row (List.mem_cons_self ..))).2 hb
          rw [hrow] at hrs
          injection hrs with he2
          have hmore : more.filter (fun r => r.id == i) = [] :=
            processData_filter_none header i rest
              (fun r hr => hv r (List.mem_cons_of_mem _ hr))
              (by omega) more hrest
          refine ⟨row, nm, reg, t, cs, List.mem_cons_self .., hb, hcs, ht,
            ht0, hcs10, ?_⟩
          rw [List.filter_append, hmore, ← he2, hfil, List.append_nil]
        · have hb0 : emitsId header row i = false := by simpa using hb
          rw [if_neg hb] at hcount
          obtain ⟨rs2, hrs2, hfil⟩ :=
            (processRow_filter header row i
              (hv row (List.mem_cons_self ..))).1 hb0
          rw [hrs2] at hrs
          injection hrs with he2
          obtain ⟨row0, nm, reg, t, cs, hmem, hemits, hcs, ht, ht0, hcs10,
            hfil2⟩ := ih (fun r hr => hv r (List.mem_cons_of_mem _ hr))
              (by omega) more hrest
          refine ⟨row0, nm, reg, t, cs, List.mem_cons_of_mem _ hmem, hemits,
            hcs, ht, ht0, hcs10, ?_⟩
          rw [List.filter_append, ← he2, hfil, List.nil_append, hfil2]

/-- The number of records the transform emits: ten per row whose state code
is a key of the region table. -/
theorem processData_length (header : List String) :
    ∀ data : List (List String),
      (∀ row ∈ data, rowValid header row = true) →
      ∃ em, processData header data = .ok em ∧
        em.length = 10 * data.countP (fun row => inRegion header row) := by
  intro data
  induction data with
  | nil => exact fun _ => ⟨[], rfl, rfl⟩
  | cons row rest ih =>
    intro hv
    obtain ⟨em, hem, hlen⟩ := ih (fun r hr => hv r (List.mem_cons_of_mem _ hr))
    have hb := processRow_of_valid header row (hv row (List.mem_cons_self ..))
    cases hreg : inRegion header row with
    | false =>
      refine ⟨em, ?_, ?_⟩
      · rw [processData_cons, hb.1 hreg, except_bind_ok, hem, except_bind_ok,
          List.nil_append]
      · rw [List.countP_cons, hreg]
        simpa using hlen
    | true =>
      obtain ⟨fips, reg, nm, i0, t, cs, hstate, hl, hi0, hnm, ht, ht0, hcs,
        hcs10, hrow⟩ := hb.2 hreg
      refine ⟨buildRecords nm reg i0 t cs ++ em, ?_, ?_⟩
      · rw [processData_cons, hrow, except_bind_ok, hem, except_bind_ok]
      · rw [List.length_append, buildRecords_length nm reg i0 t cs hcs10,
          hlen, List.countP_cons, hreg]
        simp only [if_true]
        ring

/-- Every record of the unsorted output comes from a valid row, carries that
row's name, region, id and total, and its pct is the rounded ratio of one of
the row's bracket counts to the row's total. -/
theorem processData_mem (header : List String) :
    ∀ data : List (List String),
      (∀ row ∈ data, rowValid header row = true) →
      ∀ em, processData header data = .ok em →
      ∀ r ∈ em,
        ∃ row nm reg i t cs,
          row ∈ data ∧ inRegion header row = true ∧
          rowCounts header row = some cs ∧
          fieldInt (header.zip row) "B19001_001E" = some t ∧ t ≠ 0 ∧
          r ∈ buildRecords nm reg i t cs := by
  intro data
  induction data with
  | nil =>
    intro _ em hem r hr
    unfold processData at hem
    injection hem with he
    rw [← he] at hr
    simp at hr
  | cons row rest ih =>
    intro hv em hem r hr
    rw [processData_cons] at hem
    cases hrs : processRow header row with
    | error e => rw [hrs] at hem; simp at hem
    | ok rs =>
      rw [hrs] at hem
      simp only [except_bind_ok] at hem
      cases hrest : processData header rest with
      | error e => rw [hrest] at hem; simp at hem
      | ok more =>
        rw [hrest] at hem
        simp only [except_bind_ok] at hem
        injection hem with he
        rw [← he, List.mem_append] at hr
        cases hr with
        | inl hin =>
          have hb := processRow_of_valid header row
            (hv row (List.mem_cons_self ..))
          cases hreg : inRegion header row with
          | false =>
            rw [hb.1 hreg] at hrs
            injection hrs with he2
            rw [← he2] at hin
            simp at hin
          | true =>
            obtain ⟨fips, reg, nm, i0, t, cs, hstate, hl, hi0, hnm, ht, ht0,
              hcs, hcs10, hrow⟩ := hb.2 hreg
            rw [hrow] at hrs
            injection hrs with he2
            rw [← he2] at hin
            exact ⟨row, nm, reg, i0, t, cs, List.mem_cons_self .., hreg, hcs,
              ht, ht0, hin⟩
        | inr hin =>
          obtain ⟨row2, nm, reg, i0, t, cs, hmem, hreg2, hcs, ht, ht0,
            hin2⟩ :=
            ih (fun r2 hr2 => hv r2 (List.mem_cons_of_mem _ hr2)) more hrest
              r hin
          exact ⟨row2, nm, reg, i0, t, cs, List.mem_cons_of_mem _ hmem,
            hreg2, hcs, ht, ht0, hin2⟩

theorem groupIndex_mappingGroups :
    mappingGroups.map groupIndex = [0, 1, 2, 3, 4, 6, 5, 7, 8, 9] := by
  decide

theorem mappingGroups_mem_order :
    ∀ g ∈ mappingGroups, g ∈ incomeGroupOrder := by decide

/-- A list of canonical group labels whose indices are exactly 0..9 in order
is the canonical order itself. -/
theorem recover_group_order (gl : List String)
    (hmem : ∀ g ∈ gl, g ∈ incomeGroupOrder)
    (hidx : gl.map groupIndex = List.range 10) :
    gl = incomeGroupOrder := by
  have hlen : gl.length = 10 := by
    have h1 := congrArg List.length hidx
    simpa using h1
  apply List.ext_getElem?
  intro n
  by_cases hn : n < 10
  · have h1 : (gl.map groupIndex)[n]? = (List.range 10)[n]? := by rw [hidx]
    rw [List.getElem?_map, List.getElem?_range hn] at h1
    cases hg : gl[n]? with
    | none => rw [hg] at h1; simp at h1
    | some g =>
      rw [hg] at h1
      simp only [Option.map_some'] at h1
      injection h1 with h1
      have hgmem : g ∈ incomeGroupOrder := hmem g (List.getElem?_mem hg)
      have h2 : incomeGroupOrder[List.indexOf g incomeGroupOrder]? = some g :=
        List.getElem?_indexOf hgmem
      rw [show List.indexOf g incomeGroupOrder = groupIndex g from rfl,
        h1] at h2
      exact h2.symm
  · rw [List.getElem?_eq_none (by omega),
      List.getElem?_eq_none (by simp [incomeGroupOrder]; omega)]

/-- A keyLE-sorted list of records with a single state id that is a
permutation of one row's block lists its groups in the canonical declared
order. -/
theorem filtered_groups (l : List StateIncome) (i : Int)
    (nm reg : String) (t : Int) (cs : List Int) (hcs10 : cs.length = 10)
    (hperm : l.Perm (buildRecords nm reg i t cs))
    (hid : ∀ r ∈ l, r.id = i)
    (hsorted : l.Pairwise keyLE) :
    l.map (fun r => r.group) = incomeGroupOrder := by
  apply recover_group_order
  · intro g hg
    obtain ⟨r, hr, he⟩ := List.mem_map.mp hg
    have hrb := hperm.mem_iff.mp hr
    have hgm := (buildRecords_mem nm reg i t cs r hrb).2.2.2.2.1
    rw [he] at hgm
    exact mappingGroups_mem_order g hgm
  · have hmm : (l.map (fun r => r.group)).map groupIndex =
        l.map (fun r => groupIndex r.group) := by
      rw [List.map_map]
      rfl
    rw [hmm]
    have hidxsorted : (l.map (fun r => groupIndex r.group)).Pairwise
        (fun a b => a ≤ b) := by
      rw [List.pairwise_map]
      refine hsorted.imp_of_mem ?_
      intro a b ha hb hk
      have ha2 := hid a ha
      have hb2 := hid b hb
      cases hk with
      | inl hlt => rw [ha2, hb2] at hlt; exact absurd hlt (lt_irrefl i)
      | inr hand => exact hand.2
    have hpm : (l.map (fun r => groupIndex r.group)).Perm (List.range 10) := by
      have h1 := hperm.map (fun r => groupIndex r.group)
      have h2 : (buildRecords nm reg i t cs).map
          (fun r => groupIndex r.group) =
          ((buildRecords nm reg i t cs).map (fun r => r.group)).map
            groupIndex := by
        rw [List.map_map]
        rfl
      rw [h2, buildRecords_map_group nm reg i t cs hcs10,
        groupIndex_mappingGroups] at h1
      exact h1.trans (by decide)
    exact List.eq_of_perm_of_sorted hpm hidxsorted (by decide)

/-- C6: a data row whose length does not match the header length makes the
transform raise the length-mismatch error for that row (the ValueError of
zip strict=True, the MalformedRowError of the spec), and the whole run
aborts with an error, so no output is produced. -/
theorem c6_malformed_row_aborts (cd : CensusResponse) (row : List String)
    (hmem : row ∈ cd.data) (hlen : row.length ≠ cd.header.length) :
    processRow cd.header row = .error .malformedRow ∧
    ∃ e : TransformError, process_state_records cd = .error e := by
  have hrow : processRow cd.header row = .error .malformedRow := by
    unfold processRow
    rw [if_pos hlen]
  refine ⟨hrow, ?_⟩
  unfold process_state_records
  cases hd : processData cd.header cd.data with
  | error e => exact ⟨e, rfl⟩
  | ok rs =>
    obtain ⟨rs2, hrs2⟩ := processData_ok_all cd.header cd.data rs hd row hmem
    rw [hrow] at hrs2
    exact absurd hrs2 (by simp)

/-- Witness for C6 at a concrete malformed response. -/
theorem c6_malformed_row_aborts_witness :
    shortRow ∈ (CensusResponse.mk censusHeader [shortRow]).data ∧
    shortRow.length ≠ (CensusResponse.mk censusHeader [shortRow]).header.length ∧
    processRow censusHeader shortRow = .error .malformedRow ∧
    ∃ e : TransformError,
      process_state_records (CensusResponse.mk censusHeader [shortRow]) =
        .error e := by
  have h := c6_malformed_row_aborts (CensusResponse.mk censusHeader [shortRow])
    shortRow (by decide) (by decide)
  exact ⟨by decide, by decide, h.1, h.2⟩

/-- C10: the row/header length check of zip strict=True runs before the
region-table membership check, so a malformed row raises the length
mismatch even when its state code is absent from the region table. -/
theorem c10_length_check_first (header row : List String) (fips : String)
    (hlen : row.length ≠ header.length)
    (hstate : dictGet (header.zip row) "state" = some fips)
    (habs : REGION_MAPPING.lookup fips = none) :
    processRow header row = .error .malformedRow := by
  unfold processRow
  rw [if_pos hlen]

/-- Witness for C10: a short territory row still fails on its length. -/
theorem c10_length_check_first_witness :
    (["60"] : List String).length ≠ censusHeader.length ∧
    dictGet (censusHeader.zip ["60"]) "state" = some "60" ∧
    REGION_MAPPING.lookup "60" = none ∧
    processRow censusHeader ["60"] = .error .malformedRow := by
  refine ⟨by decide, by decide, by decide, ?_⟩
  exact c10_length_check_first censusHeader ["60"] "60" (by decide)
    (by decide) (by decide)

/-- C8: a well-formed row whose state code is not a key of REGION_MAPPING
emits no records and raises no error, and removing or inserting such a row
anywhere leaves the transform result unchanged. -/
theorem c8_territory_row_skipped (header row : List String) (fips : String)
    (pre post : List (List String))
    (hlen : row.length = header.length)
    (hstate : dictGet (header.zip row) "state" = some fips)
    (habs : REGION_MAPPING.lookup fips = none) :
    processRow header row = .ok [] ∧
    process_state_records ⟨header, pre ++ row :: post⟩ =
      process_state_records ⟨header, pre ++ post⟩ := by
  have h0 := processRow_skip header row fips hlen hstate habs
  refine ⟨h0, ?_⟩
  unfold process_state_records
  rw [processData_skip_middle header row h0 pre post]

/-- Witness for C8: the American Samoa row is skipped and dropping it
leaves the output of a run containing the Alabama row unchanged. -/
theorem c8_territory_row_skipped_witness :
    territoryRow.length = censusHeader.length ∧
    dictGet (censusHeader.zip territoryRow) "state" = some "60" ∧
    REGION_MAPPING.lookup "60" = none ∧
    processRow censusHeader territoryRow = .ok [] ∧
    process_state_records ⟨censusHeader, [sampleRow] ++ territoryRow :: []⟩ =
      process_state_records ⟨censusHeader, [sampleRow] ++ []⟩ := by
  have h := c8_territory_row_skipped censusHeader territoryRow "60"
    [sampleRow] [] (by decide) (by decide) (by decide)
  exact ⟨by decide, by decide, by decide, h.1, h.2⟩

/-- C2: on a structurally valid response the transform succeeds and emits
exactly ten records for every data row whose state code is a key of the
region table. -/
theorem c2_ten_records_per_region_row (cd : CensusResponse)
    (hv : ∀ row ∈ cd.data, rowValid cd.header row = true) :
    ∃ out, process_state_records cd = .ok out ∧
      out.length = 10 * cd.data.countP (fun row => inRegion cd.header row) := by
  obtain ⟨em, hem, hlen⟩ := processData_length cd.header cd.data hv
  refine ⟨List.insertionSort keyLE em, ?_, ?_⟩
  · unfold process_state_records
    rw [hem]
  · rw [(List.perm_insertionSort keyLE em).length_eq, hlen]

/-- Witness for C2 at the concrete single-state response. -/
theorem c2_ten_records_per_region_row_witness :
    (∀ row ∈ sampleCd.data, rowValid sampleCd.header row = true) ∧
    ∃ out, process_state_records sampleCd = .ok out ∧
      out.length =
        10 * sampleCd.data.countP (fun row => inRegion sampleCd.header row) :=
  ⟨by decide, c2_ten_records_per_region_row sampleCd (by decide)⟩

set_option maxHeartbeats 1600000 in
/-- C5: for the scenario header with a row for state 01 whose total field
is "1000" and first bracket field is "100", with every other mapped field
an integer literal, the ten records for the state include
(group "<10000", region "south", id 1, pct 0.1, total 1000). -/
theorem c5_scenario
    (nm s3 s4 s5 s6 s7 s8 s9 s10 s11 s12 s13 s14 s15 s16 s17 : String)
    (c3 c4 c5 c6 c7 c8 c9 c10 c11 c12 c13 c14 c15 c16 c17 : Int)
    (h3 : pyInt s3 = some c3) (h4 : pyInt s4 = some c4)
    (h5 : pyInt s5 = some c5) (h6 : pyInt s6 = some c6)
    (h7 : pyInt s7 = some c7) (h8 : pyInt s8 = some c8)
    (h9 : pyInt s9 = some c9) (h10 : pyInt s10 = some c10)
    (h11 : pyInt s11 = some c11) (h12 : pyInt s12 = some c12)
    (h13 : pyInt s13 = some c13) (h14 : pyInt s14 = some c14)
    (h15 : pyInt s15 = some c15) (h16 : pyInt s16 = some c16)
    (h17 : pyInt s17 = some c17) :
    ∃ out,
      process_state_records
        ⟨censusHeader,
         [["01", nm, "1000", "100", s3, s4, s5, s6, s7, s8, s9, s10, s11,
           s12, s13, s14, s15, s16, s17]]⟩ = .ok out ∧
      (⟨nm, "south", 1, 1/10, 1000, "<10000"⟩ : StateIncome) ∈ out := by
  have main := processRow_ok censusHeader
    ["01", nm, "1000", "100", s3, s4, s5, s6, s7, s8, s9, s10, s11, s12,
     s13, s14, s15, s16, s17]
    "01" "south" nm 1 1000
    100 c3 c4 c5 c6 c7 c8 c9 c10 c11 c12 c13 c14 c15 c16 c17
    rfl rfl (by decide) rfl (by decide) rfl (by decide) rfl
    h3 h4 h5 h6 h7 h8 h9 h10 h11 h12 h13 h14 h15 h16 h17
  refine ⟨List.insertionSort keyLE
    (buildRecords nm "south" 1 1000
      [100, c3, c4 + c5, c6 + c7, c8 + (c9 + c10), c11 + c12, c13,
       c14 + c15, c16, c17]), ?_, ?_⟩
  · unfold process_state_records
    rw [processData_cons, main.1, except_bind_ok,
      show processData censusHeader [] = .ok [] from rfl, except_bind_ok,
      List.append_nil]
  · rw [(List.perm_insertionSort keyLE _).mem_iff]
    have hpct : pyRound3 (((100 : Int) : ℚ) / ((1000 : Int) : ℚ)) =
        (1/10 : ℚ) := by decide
    simp only [buildRecords, mappingGroups, List.zipWith_cons_cons, hpct]
    exact List.mem_cons_self ..

/-- Witness for C5 with every other bracket field "0". -/
theorem c5_scenario_witness :
    pyInt "0" = some 0 ∧
    ∃ out,
      process_state_records
        ⟨censusHeader,
         [["01", "Alabama", "1000", "100", "0", "0", "0", "0", "0", "0",
           "0", "0", "0", "0", "0", "0", "0", "0", "0"]]⟩ = .ok out ∧
      (⟨"Alabama", "south", 1, 1/10, 1000, "<10000"⟩ : StateIncome) ∈ out :=
  ⟨by decide,
   c5_scenario "Alabama" "0" "0" "0" "0" "0" "0" "0" "0" "0" "0" "0" "0"
     "0" "0" "0" 0 0 0 0 0 0 0 0 0 0 0 0 0 0 0
     (by decide) (by decide) (by decide) (by decide) (by decide) (by decide)
     (by decide) (by decide) (by decide) (by decide) (by decide) (by decide)
     (by decide) (by decide) (by decide)⟩

/-- C7: an in-region row whose total parses to zero makes the transform
fail with the division-by-zero error while computing the first bracket
percentage; with a nonzero total every bracket percentage is exactly
round(count / total, 3) of its resolved count. -/
theorem c7_zero_division (header row : List String) (fips reg nm : String)
    (i c2 t : Int)
    (hlen : row.length = header.length)
    (hstate : dictGet (header.zip row) "state" = some fips)
    (hreg : REGION_MAPPING.lookup fips = some reg)
    (hname : dictGet (header.zip row) "NAME" = some nm)
    (hfips : pyInt fips = some i)
    (ht : fieldInt (header.zip row) "B19001_001E" = some t)
    (h2 : fieldInt (header.zip row) "B19001_002E" = some c2) :
    (t = 0 → processRow header row = .error .zeroDivision) ∧
    (t ≠ 0 → rowValid header row = true →
      ∃ cs, rowCounts header row = some cs ∧
        processRow header row = .ok (buildRecords nm reg i t cs) ∧
        (buildRecords nm reg i t cs).map (fun r => r.pct) =
          cs.map (fun (c : Int) => pyRound3 ((c : ℚ) / (t : ℚ)))) := by
  constructor
  · intro h0
    subst h0
    simp only [processRow, if_neg (show ¬row.length ≠ header.length by omega),
      hstate, hreg, Option.isNone_some, Bool.false_eq_true, if_false,
      INCOME_MAPPING, processEntries, countOf, sumVars, mkRecord,
      parseField_eq ht, parseField_eq h2, getField_eq hname, hfips,
      except_bind_ok]
    simp
  · intro ht0 hv
    have hreg2 : inRegion header row = true := by
      unfold inRegion
      rw [hstate]
      simp [hreg]
    obtain ⟨fips2, reg2, nm2, i2, t2, cs, hstate2, hreg3, hi2, hnm2, ht2,
      ht02, hcs, hcs10, hrow⟩ := (processRow_of_valid header row hv).2 hreg2
    rw [hstate] at hstate2
    injection hstate2 with he
    subst he
    rw [hreg] at hreg3
    injection hreg3 with he
    subst he
    rw [hfips] at hi2
    injection hi2 with he
    subst he
    rw [hname] at hnm2
    injection hnm2 with he
    subst he
    rw [ht] at ht2
    injection ht2 with he
    subst he
    exact ⟨cs, hcs, hrow, buildRecords_map_pct nm reg i t cs hcs10⟩

/-- Witness for C7 at the concrete zero-total row. -/
theorem c7_zero_division_witness :
    fieldInt (censusHeader.zip zeroTotalRow) "B19001_001E" = some 0 ∧
    processRow censusHeader zeroTotalRow = .error .zeroDivision :=
  ⟨by decide,
   (c7_zero_division censusHeader zeroTotalRow "01" "south" "Alabama"
     1 100 0 (by decide) (by decide) (by decide) (by decide) (by decide)
     (by decide) (by decide)).1 rfl⟩

/-- C9 amended: the fetch fails exactly when raise_for_status raises (an
HTTP status in [400, 600)) or the body is missing or has fewer than two
array entries; on success the first array element is the header row and all
remaining elements are the data rows. -/
theorem c9_fetch_contract (status : Nat)
    (body : Option (List (List String))) :
    ((∃ e, get_census_data status body = .error e) ↔
      ((400 ≤ status ∧ status < 600) ∨ body = none ∨
        ∃ d, body = some d ∧ d.length < 2)) ∧
    (∀ first rest, ¬(400 ≤ status ∧ status < 600) →
      body = some (first :: rest) → rest ≠ [] →
      get_census_data status body = .ok ⟨first, rest⟩) := by
  unfold get_census_data raiseForStatus
  by_cases hs : 400 ≤ status ∧ status < 600
  · rw [if_pos hs]
    constructor
    · constructor
      · intro _
        exact Or.inl hs
      · intro _
        exact ⟨.httpStatus status, rfl⟩
    · intro first rest hns _ _
      exact absurd hs hns
  · rw [if_neg hs]
    simp only [except_bind_ok]
    cases body with
    | none =>
      constructor
      · constructor
        · intro _
          exact Or.inr (Or.inl rfl)
        · intro _
          exact ⟨.invalidFormat, rfl⟩
      · intro first rest _ hbody
        exact absurd hbody (by simp)
    | some d =>
      dsimp only
      by_cases hd : d = [] ∨ d.length < 2
      · rw [if_pos hd]
        constructor
        · constructor
          · intro _
            refine Or.inr (Or.inr ⟨d, rfl, ?_⟩)
            cases hd with
            | inl he => rw [he]; simp
            | inr hlen => exact hlen
          · intro _
            exact ⟨.invalidFormat, rfl⟩
        · intro first rest _ hbody hrest
          injection hbody with he
          subst he
          cases hd with
          | inl he => simp at he
          | inr hlen =>
            simp only [List.length_cons] at hlen
            have : rest = [] := by
              cases rest with
              | nil => rfl
              | cons a l =>
                simp only [List.length_cons] at hlen
                exact absurd hlen (by omega)
            exact absurd this hrest
      · rw [if_neg hd]
        push_neg at hd
        obtain ⟨hne, hlen⟩ := hd
        cases d with
        | nil => exact absurd rfl hne
        | cons first rest =>
          constructor
          · constructor
            · intro ⟨e, he⟩
              simp at he
            · intro habs
              rcases habs with h1 | h2 | ⟨d2, hd2, hlen2⟩
              · exact absurd h1 hs
              · simp at h2
              · injection hd2 with he
                subst he
                omega
          · intro f2 r2 _ hbody _
            injection hbody with he
            injection he with he1 he2
            subst he1
            subst he2
            rfl

/-- Witness for C9 at a concrete success and a concrete failure. -/
theorem c9_fetch_contract_witness :
    get_census_data 200 (some [["h"], ["d"]]) = .ok ⟨["h"], [["d"]]⟩ ∧
    ∃ e, get_census_data 404 (some [["h"], ["d"]]) = .error e :=
  ⟨(c9_fetch_contract 200 (some [["h"], ["d"]])).2 ["h"] [["d"]]
     (by decide) rfl (by decide),
   (c9_fetch_contract 404 (some [["h"], ["d"]])).1.mpr
     (Or.inl (by decide))⟩

/-- C9 counterexample: status 304 is not a 2xx success, yet with a
well-formed two-entry body the fetch succeeds, because raise_for_status
raises only for status codes in [400, 600). -/
theorem c9_fetch_counterexample :
    get_census_data 304 (some [["h"], ["d"]]) = .ok ⟨["h"], [["d"]]⟩ ∧
    ¬(200 ≤ 304 ∧ 304 < 300) := by
  constructor
  · decide
  · decide

/-- The serialized JSON always ends with the closing bracket of the
top-level array: json.dumps appends no trailing newline and
write_text(newline="\x5cn") only translates newlines already present. -/
theorem json_dumps_last (records : List StateIncome) :
    (json_dumps records).data.getLast? = some ']' := by
  unfold json_dumps
  cases records with
  | nil => decide
  | cons r rs =>
    rw [String.data_append, List.getLast?_append,
      show ("\n]" : String).data.getLast? = some ']' from rfl]
    rfl

/-- C4 amended: the writer serializes the records with
json.dumps(indent=2); the content always ends with the closing bracket with
no trailing newline appended, and in main the parent directory of the fixed
output path is created before the write (write_json itself only writes). -/
theorem c4_write_contract (records : List StateIncome) :
    (json_dumps records).data.getLast? = some ']' ∧
    (']' : Char) ≠ '\n' ∧
    mainWriteOps records =
      [FsOp.mkdirParents ["data"],
       FsOp.writeText OUTPUT_FILE (json_dumps records)] :=
  ⟨json_dumps_last records, by decide, rfl⟩

/-- C4 counterexample: at a concrete record list the full serialized
content is the indented array with no trailing newline: its last character
is the closing bracket, not the newline the claim requires. -/
theorem c4_write_counterexample :
    json_dumps [⟨"Alabama", "south", 1, 1/10, 1000, "<10000"⟩] =
      "[\n  \x7b\n    \"name\": \"Alabama\",\n    \"region\": \"south\",\n    \"id\": 1,\n    \"pct\": 0.1,\n    \"total\": 1000,\n    \"group\": \"<10000\"\n  \x7d\n]" ∧
    (json_dumps [⟨"Alabama", "south", 1, 1/10, 1000, "<10000"⟩]).data.getLast?
      = some ']' ∧
    (']' : Char) ≠ '\n' := by
  refine ⟨?_, ?_, ?_⟩
  · decide
  · decide
  · decide

/-- C1 amended: the output is sorted ascending by the key
(state id, index of the group in the declared IncomeGroup order), and for a
state id produced by exactly one data row the ten emitted groups appear
exactly in that declared order — which lists "75000 to 99999" before
"50000 to 74999", so it is not the low-to-high income order. -/
theorem c1_output_order (cd : CensusResponse) (out : List StateIncome)
    (hv : ∀ row ∈ cd.data, rowValid cd.header row = true)
    (hok : process_state_records cd = .ok out) :
    out.Pairwise keyLE ∧
    (∀ i : Int, cd.data.countP (fun row => emitsId cd.header row i) = 1 →
      (out.filter (fun r => r.id == i)).map (fun r => r.group) =
        incomeGroupOrder) := by
  unfold process_state_records at hok
  cases hd : processData cd.header cd.data with
  | error e => rw [hd] at hok; simp at hok
  | ok em =>
    rw [hd] at hok
    injection hok with he
    subst he
    constructor
    · exact List.sorted_insertionSort keyLE em
    · intro i hcount
      obtain ⟨row0, nm, reg, t, cs, hmem, hemits, hcs, ht, ht0, hcs10,
        hfil⟩ := processData_filter_one cd.header i cd.data hv hcount em hd
      have hperm : ((List.insertionSort keyLE em).filter
          (fun r => r.id == i)).Perm (buildRecords nm reg i t cs) := by
        have h1 := (List.perm_insertionSort keyLE em).filter
          (fun r => r.id == i)
        rw [hfil] at h1
        exact h1
      have hid : ∀ r ∈ (List.insertionSort keyLE em).filter
          (fun r => r.id == i), r.id = i := by
        intro r hr
        have h2 := (List.mem_filter.mp hr).2
        simpa using h2
      have hsorted : ((List.insertionSort keyLE em).filter
          (fun r => r.id == i)).Pairwise keyLE :=
        List.Pairwise.sublist (List.filter_sublist _)
          (List.sorted_insertionSort keyLE em)
      exact filtered_groups _ i nm reg t cs hcs10 hperm hid hsorted

/-- Witness for C1 at the concrete single-state response. -/
theorem c1_output_order_witness :
    (∀ row ∈ sampleCd.data, rowValid sampleCd.header row = true) ∧
    process_state_records sampleCd = .ok sampleOut ∧
    sampleCd.data.countP (fun row => emitsId sampleCd.header row 1) = 1 ∧
    sampleOut.Pairwise keyLE ∧
    (sampleOut.filter (fun r => r.id == 1)).map (fun r => r.group) =
      incomeGroupOrder := by
  have hok : process_state_records sampleCd = .ok sampleOut := by decide
  have h := c1_output_order sampleCd sampleOut (by decide) hok
  exact ⟨by decide, hok, by decide, h.1, h.2 1 (by decide)⟩

/-- C1 counterexample: on a valid single-state response the whole emitted
group sequence is the declared order, which places "75000 to 99999" at
position five, before "50000 to 74999" at position six: the ten groups for
the state are not in low-to-high income order. -/
theorem c1_output_order_counterexample :
    (process_state_records sampleCd).map
      (fun out => out.map (fun r => r.group)) = .ok incomeGroupOrder ∧
    incomeGroupOrder ≠ lowToHighGroups := by
  constructor
  · decide
  · decide

/-- C3: when every in-region row carries nonnegative bracket counts that
partition its reported total, every emitted pct lies in [0, 1] and, for a
state id produced by exactly one data row, the ten pct values for that id
sum to within 0.01 of 1. -/
theorem c3_pct_bounds (cd : CensusResponse) (out : List StateIncome)
    (hv : ∀ row ∈ cd.data, rowValid cd.header row = true)
    (hc : ∀ row ∈ cd.data, inRegion cd.header row = true →
      rowCountsOk cd.header row = true)
    (hok : process_state_records cd = .ok out) :
    (∀ r ∈ out, 0 ≤ r.pct ∧ r.pct ≤ 1) ∧
    (∀ i : Int, cd.data.countP (fun row => emitsId cd.header row i) = 1 →
      |((out.filter (fun r => r.id == i)).map (fun r => r.pct)).sum - 1| ≤
        1/100) := by
  unfold process_state_records at hok
  cases hd : processData cd.header cd.data with
  | error e => rw [hd] at hok; simp at hok
  | ok em =>
    rw [hd] at hok
    injection hok with he
    subst he
    constructor
    · intro r hr
      have hrm : r ∈ em := (List.perm_insertionSort keyLE em).mem_iff.mp hr
      obtain ⟨row, nm, reg, i0, t, cs, hmem, hreg, hcs, ht, ht0, hin⟩ :=
        processData_mem cd.header cd.data hv em hd r hrm
      have hok2 := hc row hmem hreg
      unfold rowCountsOk at hok2
      rw [hcs, ht] at hok2
      simp only [Bool.and_eq_true, List.all_eq_true, beq_iff_eq] at hok2
      obtain ⟨hnn, hsum⟩ := hok2
      obtain ⟨_, _, _, _, _, c, hcmem, hpct⟩ :=
        buildRecords_mem nm reg i0 t cs r hin
      have hc0 : 0 ≤ c := by simpa using hnn c hcmem
      have hct : c ≤ t := by
        rw [← hsum]
        exact mem_le_sum_int cs (fun x hx => by simpa using hnn x hx) c hcmem
      have htpos : 0 < t := by
        have h1 : 0 ≤ cs.sum :=
          List.sum_nonneg (fun x hx => by simpa using hnn x hx)
        rw [hsum] at h1
        omega
      rw [hpct]
      constructor
      · refine pyRound3_nonneg _ (div_nonneg ?_ ?_)
        · exact_mod_cast hc0
        · exact_mod_cast le_of_lt htpos
      · apply pyRound3_le_one
        rw [div_le_one (by exact_mod_cast htpos)]
        exact_mod_cast hct
    · intro i hcount
      obtain ⟨row0, nm, reg, t, cs, hmem, hemits, hcs, ht, ht0, hcs10,
        hfil⟩ := processData_filter_one cd.header i cd.data hv hcount em hd
      have hok2 := hc row0 hmem (emitsId_inRegion _ _ _ hemits)
      unfold rowCountsOk at hok2
      rw [hcs, ht] at hok2
      simp only [Bool.and_eq_true, List.all_eq_true, beq_iff_eq] at hok2
      obtain ⟨hnn, hsum⟩ := hok2
      have hperm : ((List.insertionSort keyLE em).filter
          (fun r => r.id == i)).Perm (buildRecords nm reg i t cs) := by
        have h1 := (List.perm_insertionSort keyLE em).filter
          (fun r => r.id == i)
        rw [hfil] at h1
        exact h1
      have hsum_eq := (hperm.map (fun r => r.pct)).sum_eq
      rw [buildRecords_map_pct nm reg i t cs hcs10] at hsum_eq
      rw [hsum_eq]
      have hbound := sum_pyRound3_dist t cs
      rw [hcs10] at hbound
      have htq : ((cs.sum : ℤ) : ℚ) / (t : ℚ) = 1 := by
        rw [hsum]
        exact div_self (by exact_mod_cast ht0)
      rw [htq] at hbound
      rw [abs_le] at hbound ⊢
      obtain ⟨hb1, hb2⟩ := hbound
      constructor
      · norm_num at hb1 ⊢
        linarith
      · norm_num at hb2 ⊢
        linarith

/-- Witness for C3 at the concrete single-state response. -/
theorem c3_pct_bounds_witness :
    (∀ row ∈ sampleCd.data, rowValid sampleCd.header row = true) ∧
    (∀ row ∈ sampleCd.data, inRegion sampleCd.header row = true →
      rowCountsOk sampleCd.header row = true) ∧
    process_state_records sampleCd = .ok sampleOut ∧
    (∀ r ∈ sampleOut, 0 ≤ r.pct ∧ r.pct ≤ 1) ∧
    |((sampleOut.filter (fun r => r.id == 1)).map (fun r => r.pct)).sum - 1|
      ≤ 1/100 := by
  have hok : process_state_records sampleCd = .ok sampleOut := by decide
  have h := c3_pct_bounds sampleCd sampleOut (by decide) (by decide) hok
  exact ⟨by decide, by decide, hok, h.1, h.2 1 (by decide)⟩
